import Mathlib

/-!
Verification of two components of the KES server:

* the in-memory key-value store of package `mem` (`Store` and its
  `Status`/`Create`/`Delete`/`Get`/`List` methods together with the
  `iterator` returned by `List`), and
* the policy HTTP API of package `internal/http`
  (`internal/http/policy-api.go`): the route constants, the middleware
  chains installed by each route constructor, and the request handlers
  of the assign-policy and list-policy routes.

The Go code is shallowly embedded: the Go map held by `Store` becomes an
association list whose map abstraction is `mapLookup`; methods that
mutate their receiver return the new store paired with the Go error
value; handlers become pure functions from a request (plus enclave
oracles) to the observable response. Types and functions of the KES
repository that are outside the provided sources (the `kes` error and
identity types, the enclave, URL normalization and name validation) are
modelled from the specification and marked as such in their doc
comments.
-/

namespace Kes

/-- MemError models the two error values of the `kes` package returned by
the in-memory store, `kes.ErrKeyExists` and `kes.ErrKeyNotFound`.
Modelled from the spec: the store fails with `KeyExists` on `Create` of a
taken name and with `KeyNotFound` on `Get` of an absent name. -/
inductive MemError where
  | keyExists
  | keyNotFound
  deriving DecidableEq

/-- StoreStateKind models `key.StoreState`'s state field.
Modelled from the spec: `Status()` returns a state that is either
available or unreachable. -/
inductive StoreStateKind where
  | available
  | unreachable
  deriving DecidableEq

/-- StoreState models `key.StoreState`: a state kind plus a latency
(nanoseconds). Modelled from the spec: `Status()` returns
a state and a latency. -/
structure StoreState where
  State : StoreStateKind
  Latency : Nat
  deriving DecidableEq

/-- Store is the in-memory key-value store of package `mem`. The Go
struct holds a possibly-nil `map[string]key.Key`; the map is embedded as
an association list (its map abstraction is `mapLookup`), and the nil map
of the Go zero value is the empty list. The `sync.RWMutex` only guards
concurrent access and has no sequential meaning. The key type
`key.Key` is opaque here, hence the type parameter. -/
structure Store (κ : Type) where
  store : List (String × κ)
  deriving DecidableEq

/-- Store.zero is the Go zero value of `Store`: the nil map. -/
def Store.zero {κ : Type} : Store κ := ⟨[]⟩

/-- mapLookup is the abstraction of a Go map read `k, ok := m[name]`
over the association-list embedding: the first binding of the name
wins. -/
def mapLookup {κ : Type} : List (String × κ) → String → Option κ
  | [], _ => none
  | (n, k) :: rest, name => if n = name then some k else mapLookup rest name

/-- mapDelete is the abstraction of the Go built-in `delete(m, name)`
over the association-list embedding: all bindings of the name are
removed (a Go map holds at most one). -/
def mapDelete {κ : Type} : List (String × κ) → String → List (String × κ)
  | [], _ => []
  | (n, k) :: rest, name =>
      if n = name then mapDelete rest name else (n, k) :: mapDelete rest name

/-- Status embeds `Store.Status`: the in-memory key store is always
healthy, with zero latency, and the returned Go error is nil. -/
def Store.Status {κ : Type} (_ : Store κ) : StoreState × Option MemError :=
  (⟨StoreStateKind.available, 0⟩, none)

/-- Create embeds `Store.Create`: it initializes the nil map if needed
(implicit in the list embedding), fails with `kes.ErrKeyExists` if an
entry for the name exists, and otherwise adds the binding. The result
pairs the updated receiver with the returned Go error. -/
def Store.Create {κ : Type} (s : Store κ) (name : String) (k : κ) :
    Store κ × Option MemError :=
  match mapLookup s.store name with
  | some _ => (s, some MemError.keyExists)
  | none => (⟨(name, k) :: s.store⟩, none)

/-- Delete embeds `Store.Delete`: it removes the binding of the name via
the Go built-in `delete` and always returns a nil error. -/
def Store.Delete {κ : Type} (s : Store κ) (name : String) :
    Store κ × Option MemError :=
  (⟨mapDelete s.store name⟩, none)

/-- Get embeds `Store.Get`: it returns the key bound to the name, or
fails with `kes.ErrKeyNotFound` if no entry exists. -/
def Store.Get {κ : Type} (s : Store κ) (name : String) : Except MemError κ :=
  match mapLookup s.store name with
  | some k => Except.ok k
  | none => Except.error MemError.keyNotFound

/-- iterator embeds the `iterator` struct of package `mem`: the slice of
names copied out of the map by `List`, plus the name most recently
yielded by `Next`. -/
structure iterator where
  values : List String
  last : String
  deriving DecidableEq

/-- List embeds `Store.List`: it copies the names of all current entries
into a fresh slice and returns an iterator over that copy, with a nil
error. The Go map range order is unspecified; the embedding takes the
association-list order. -/
def Store.List {κ : Type} (s : Store κ) : iterator × Option MemError :=
  (⟨s.store.map Prod.fst, ""⟩, none)

/-- Next embeds `iterator.Next`: if values remain, the head becomes the
current name and is consumed; otherwise it reports false. The Go method
mutates the receiver, so the embedding returns the updated iterator
alongside the result. -/
def iterator.Next : iterator → Bool × iterator
  | ⟨[], l⟩ => (false, ⟨[], l⟩)
  | ⟨v :: vs, _⟩ => (true, ⟨vs, v⟩)

/-- Name embeds `iterator.Name`: the name most recently yielded. -/
def iterator.Name (i : iterator) : String := i.last

/-- Err embeds `iterator.Err`: always nil. -/
def iterator.Err (_ : iterator) : Option MemError := none

/-- drain runs the iterator protocol to exhaustion, collecting the name
yielded after each successful `Next`; it is the list of names the
iterator yields. Each step is exactly one `iterator.Next` followed by
`iterator.Name` on the updated iterator. -/
def iterator.drain : iterator → List String
  | ⟨[], _⟩ => []
  | ⟨v :: vs, _⟩ => v :: iterator.drain ⟨vs, v⟩
termination_by i => i.values.length

/-- MemOp is a mutating operation against the in-memory store, used to
state trace properties. -/
inductive MemOp (κ : Type) where
  | create (name : String) (k : κ)
  | delete (name : String)

/-- applyOp runs one mutating operation against a store, keeping the
updated receiver and discarding the returned error (a failed `Create`
leaves the receiver unchanged). -/
def applyOp {κ : Type} (s : Store κ) : MemOp κ → Store κ
  | MemOp.create n k => (s.Create n k).1
  | MemOp.delete n => (s.Delete n).1

/-- runOps runs a sequence of mutating operations, oldest first. -/
def runOps {κ : Type} (s : Store κ) (ops : List (MemOp κ)) : Store κ :=
  ops.foldl applyOp s

/-- lastStored reads a reversed operation trace (most recent operation
first) and formalizes the phrase "the key stored by the most recent
successful Create(name, k) with no intervening Delete(name)", for traces
that start from the zero-value store: a delete of the name means no such
create exists; a create of the name yields its key if the name was free
at that point (no surviving earlier binding), and otherwise the earlier
surviving key. -/
def lastStored {κ : Type} : List (MemOp κ) → String → Option κ
  | [], _ => none
  | MemOp.delete n :: rest, name =>
      if n = name then none else lastStored rest name
  | MemOp.create n k :: rest, name =>
      if n = name then some ((lastStored rest name).getD k)
      else lastStored rest name

/-- Identity models `kes.Identity`: an opaque string compared by exact
equality. Modelled from the spec: an identity is an opaque,
case-sensitive string; a distinguished value denotes "no identity". -/
abbrev Identity := String

/-- IdentityUnknown models `kes.IdentityUnknown`, the distinguished
"no identity" value. Modelled from the spec. -/
def IdentityUnknown : Identity := ""

/-- IsUnknown models `kes.Identity.IsUnknown`: whether the identity is
the distinguished unknown identity. Modelled from the spec. -/
def Identity.IsUnknown (i : Identity) : Bool := i == IdentityUnknown

/-- KesError models a `kes.Error` as produced by `kes.NewError`: an HTTP
status code paired with a message. Modelled from the spec: every error
maps to a stable HTTP status and message. -/
structure KesError where
  status : Nat
  message : String
  deriving DecidableEq

/-- errMethodNotAllowed models the `errMethodNotAllowed` value used by
every handler on a method mismatch. Modelled from the spec: method
mismatch is rejected with 405. -/
def errMethodNotAllowed : KesError := ⟨405, "method not allowed"⟩

/-- errInvalidName is the error of `validateName`. Modelled from the
spec: invalid names are BadRequest (400). -/
def errInvalidName : KesError := ⟨400, "name is invalid"⟩

/-- errInvalidPattern is the error of `validatePattern`. Modelled from
the spec: invalid patterns are BadRequest (400). -/
def errInvalidPattern : KesError := ⟨400, "pattern is invalid"⟩

/-- errInvalidPath is the error of `normalizeURL`. Modelled from the
spec: a path that escapes its route prefix is BadRequest (400). -/
def errInvalidPath : KesError := ⟨400, "invalid path"⟩

/-- isNameChar holds for the characters of the name alphabet. Modelled
from the spec: names match the character class 0-9 A-Z a-z underscore
dot dash. -/
def isNameChar (c : Char) : Bool :=
  c.isAlphanum || c == '_' || c == '.' || c == '-'

/-- validateName models the `validateName` check applied by every policy
handler to the trailing path segment. Modelled from the spec: a name
matches the name alphabet and has length between 1 and 80. -/
def validateName (name : String) : Option KesError :=
  if 1 ≤ name.data.length ∧ name.data.length ≤ 80 ∧ name.data.all isNameChar
  then none
  else some errInvalidName

/-- isPatternChar holds for the characters allowed in a list pattern:
the name alphabet plus the glob metacharacters. Modelled from the
spec glob semantics. -/
def isPatternChar (c : Char) : Bool := isNameChar c || c == '*' || c == '?'

/-- validatePattern models the `validatePattern` check of the list
routes. Modelled from the spec: a pattern is a glob over the name
alphabet of length at most 80. -/
def validatePattern (pat : String) : Option KesError :=
  if pat.data.length ≤ 80 ∧ pat.data.all isPatternChar then none
  else some errInvalidPattern

/-- charsStart decides whether the first character list starts with the
second; it is the character-level reading of `strings.HasPrefix`. -/
def charsStart : List Char → List Char → Bool
  | _, [] => true
  | [], _ :: _ => false
  | c :: cs, p :: ps => c == p && charsStart cs ps

/-- hasDoubleSlash detects two adjacent slashes in a path. -/
def hasDoubleSlash : List Char → Bool
  | '/' :: '/' :: _ => true
  | _ :: rest => hasDoubleSlash rest
  | [] => false

/-- segments splits a path at every slash, keeping empty segments. -/
def segments : List Char → List (List Char)
  | [] => [[]]
  | '/' :: rest => [] :: segments rest
  | c :: rest =>
    match segments rest with
    | seg :: segs => (c :: seg) :: segs
    | [] => [[c]]

/-- cleanPath holds when a request path is acceptable for a route whose
declared path prefix ends in a single trailing name or pattern segment.
Modelled from the spec: URL normalization rejects dot and dot-dot
segments, duplicate slashes, and surplus segments beyond what the route
declares. -/
def cleanPath (path apiPath : String) : Bool :=
  charsStart path.data apiPath.data
    && !((segments path.data).any (fun s => s == ['.'] || s == ['.', '.']))
    && !(hasDoubleSlash path.data)
    && !((path.data.drop apiPath.data.length).contains '/')

/-- normalizeURL models `normalizeURL(r.URL, APIPath)`. Modelled from
the spec, see `cleanPath`. -/
def normalizeURL (path apiPath : String) : Option KesError :=
  if cleanPath path apiPath then none else some errInvalidPath

/-- trimPrefixGo models `strings.TrimPrefix`: it removes the leading
occurrence of the given prefix string, and returns the string unchanged
if it does not start with it. -/
def trimPrefixGo (s p : String) : String :=
  if charsStart s.data p.data then ⟨s.data.drop p.data.length⟩ else s

/-- trimChars models `strings.TrimSpace` on the character list: leading
and trailing whitespace is removed. -/
def trimChars (l : List Char) : List Char :=
  ((l.dropWhile Char.isWhitespace).reverse.dropWhile Char.isWhitespace).reverse

/-- API is the route description record returned by every route
constructor of `policy-api.go`: HTTP method, path prefix, maximum body
size in bytes, and timeout in seconds. -/
structure API where
  Method : String
  Path : String
  MaxBody : Nat
  Timeout : Nat
  deriving DecidableEq

/-- describePolicyAPI transcribes the route constants of
`describePolicy` (policy-api.go lines 18 to 25 and 71 to 76). -/
def describePolicyAPI : API := ⟨"GET", "/v1/policy/describe/", 0, 15⟩

/-- assignPolicyAPI transcribes the route constants of `assignPolicy`
(policy-api.go lines 79 to 85 and 138 to 143): POST on
/v1/policy/assign/ with a 1024-byte body limit. -/
def assignPolicyAPI : API := ⟨"POST", "/v1/policy/assign/", 1024, 15⟩

/-- readPolicyAPI transcribes the route constants of `readPolicy`. -/
def readPolicyAPI : API := ⟨"GET", "/v1/policy/read/", 0, 15⟩

/-- writePolicyAPI transcribes the route constants of `writePolicy`. -/
def writePolicyAPI : API := ⟨"POST", "/v1/policy/write/", 1048576, 15⟩

/-- deletePolicyAPI transcribes the route constants of `deletePolicy`. -/
def deletePolicyAPI : API := ⟨"DELETE", "/v1/policy/delete/", 0, 15⟩

/-- listPolicyAPI transcribes the route constants of `listPolicy`. -/
def listPolicyAPI : API := ⟨"GET", "/v1/policy/list/", 0, 15⟩

/-- Middleware enumerates the wrappers that a route constructor can
compose around its handler at `mux.HandleFunc`. -/
inductive Middleware where
  | timeout
  | proxy
  | metricsCount
  | metricsLatency
  deriving DecidableEq

/-- describePolicyChain transcribes the composition installed by
`describePolicy` (policy-api.go line 70):
timeout(Timeout, config.Metrics.Count(config.Metrics.Latency(handler))).
No proxy wrapper is present. -/
def describePolicyChain : List Middleware :=
  [Middleware.timeout, Middleware.metricsCount, Middleware.metricsLatency]

/-- assignPolicyChain transcribes the composition installed by
`assignPolicy` (policy-api.go line 137): timeout(Timeout,
proxy(config.Proxy, config.Metrics.Count(config.Metrics.Latency(handler)))). -/
def assignPolicyChain : List Middleware :=
  [Middleware.timeout, Middleware.proxy, Middleware.metricsCount,
   Middleware.metricsLatency]

/-- readPolicyChain transcribes the composition installed by
`readPolicy` (policy-api.go line 202). -/
def readPolicyChain : List Middleware := assignPolicyChain

/-- writePolicyChain transcribes the composition installed by
`writePolicy` (policy-api.go line 269). -/
def writePolicyChain : List Middleware := assignPolicyChain

/-- deletePolicyChain transcribes the composition installed by
`deletePolicy` (policy-api.go line 321). -/
def deletePolicyChain : List Middleware := assignPolicyChain

/-- listPolicyChain transcribes the composition installed by
`listPolicy` (policy-api.go line 411). -/
def listPolicyChain : List Middleware := assignPolicyChain

/-- policyAPIChains lists, for every route of `policy-api.go`, the route
path and the middleware chain its constructor installs. -/
def policyAPIChains : List (String × List Middleware) :=
  [("/v1/policy/describe/", describePolicyChain),
   ("/v1/policy/assign/", assignPolicyChain),
   ("/v1/policy/read/", readPolicyChain),
   ("/v1/policy/write/", writePolicyChain),
   ("/v1/policy/delete/", deletePolicyChain),
   ("/v1/policy/list/", listPolicyChain)]

/-- Policy models `auth.Policy`: allow and deny pattern lists plus
creation metadata (timestamp as a natural number). Modelled from the
spec data model. -/
structure Policy where
  Allow : List String
  Deny : List String
  CreatedAt : Nat
  CreatedBy : Identity
  deriving DecidableEq

/-- AssignBody is the decoded JSON request body of the assign-policy
route: a single identity field. -/
structure AssignBody where
  identity : Identity
  deriving DecidableEq

/-- Request models the part of an `http.Request` the policy handlers
look at: the method, the URL path, the effective caller identity as
computed by `auth.Identify` after the proxy middleware ran, and the
result of JSON-decoding the request body. -/
structure Request where
  method : String
  path : String
  identity : Identity
  body : Except KesError AssignBody

/-- Enclave models the enclave object used by the handlers. The enclave
implementation is outside the provided sources, so its operations are
oracle functions; `ListPolicies` stands for the policy-name iterator it
returns and `CloseErr` for the deferred error reported by that
iterator's Close. Modelled from the spec (component F). -/
structure Enclave where
  VerifyRequest : Request → Option KesError
  AssignPolicy : String → Identity → Option KesError
  GetPolicy : String → Except KesError Policy
  ListPolicies : Except KesError (List String)
  CloseErr : Option KesError

/-- DeniesUnknown is the one property of `VerifyRequest` the handlers
rely on. Modelled from the spec: "Identity `unknown` is always
denied" by the authorization gate. -/
def Enclave.DeniesUnknown (enc : Enclave) : Prop :=
  ∀ r : Request, r.identity.IsUnknown = true → enc.VerifyRequest r ≠ none

/-- requestPattern is the trailing path segment a policy handler works
on: `strings.TrimSpace(strings.TrimPrefix(r.URL.Path, APIPath))`. -/
def requestPattern (r : Request) (api : API) : String :=
  ⟨trimChars (trimPrefixGo r.path api.Path).data⟩

/-- AssignOutcome is the observable outcome of the assign-policy
handler: the HTTP status written, the error message written (empty on
success), and the list of `AssignPolicy` calls issued to the enclave. -/
structure AssignOutcome where
  status : Nat
  message : String
  assignCalls : List (String × Identity)
  deriving DecidableEq

/-- assignPolicyHandler embeds the handler of `assignPolicy`
(policy-api.go lines 89 to 136), step by step: method check, URL
normalization, enclave lookup (the `Except` argument is the result of
`lookupEnclave`), request verification, name validation, body decoding,
the unknown-identity check, the self-assign check, and finally the
`AssignPolicy` call. The audit wrapper and the body size limiter do not
change the decided outcome and are not modelled. -/
def assignPolicyHandler (enclave : Except KesError Enclave) (r : Request) :
    AssignOutcome :=
  if r.method ≠ assignPolicyAPI.Method then
    ⟨errMethodNotAllowed.status, errMethodNotAllowed.message, []⟩
  else match normalizeURL r.path assignPolicyAPI.Path with
  | some e => ⟨e.status, e.message, []⟩
  | none =>
    match enclave with
    | Except.error e => ⟨e.status, e.message, []⟩
    | Except.ok enc =>
      match enc.VerifyRequest r with
      | some e => ⟨e.status, e.message, []⟩
      | none =>
        match validateName (requestPattern r assignPolicyAPI) with
        | some e => ⟨e.status, e.message, []⟩
        | none =>
          match r.body with
          | Except.error e => ⟨e.status, e.message, []⟩
          | Except.ok req =>
            if req.identity.IsUnknown then ⟨400, "identity is unknown", []⟩
            else if r.identity = req.identity then
              ⟨403, "identity cannot assign policy to itself", []⟩
            else
              match enc.AssignPolicy (requestPattern r assignPolicyAPI)
                  req.identity with
              | some e =>
                ⟨e.status, e.message,
                 [(requestPattern r assignPolicyAPI, req.identity)]⟩
              | none =>
                ⟨200, "", [(requestPattern r assignPolicyAPI, req.identity)]⟩

/-- ListItem is one ND-JSON object written by the list-policy handler:
either a policy entry carrying name, created_at and created_by, or a
final error object. -/
inductive ListItem where
  | entry (name : String) (createdAt : Nat) (createdBy : Identity)
  | errLine (msg : String)
  deriving DecidableEq

/-- entryOf is the ND-JSON object the list-policy handler writes for one
name: the entry built from `GetPolicy`'s result, or the error object if
that fetch failed. -/
def entryOf (getPolicy : String → Except KesError Policy) (n : String) :
    ListItem :=
  match getPolicy n with
  | Except.ok p => ListItem.entry n p.CreatedAt p.CreatedBy
  | Except.error e => ListItem.errLine e.message

/-- listLoop embeds the streaming loop of `listPolicy` (policy-api.go
lines 380 to 402): names that do not match the pattern are skipped; for
a matching name the policy is fetched and, on failure, a single error
object is emitted and the loop aborts (second component true);
otherwise the entry is emitted and the loop continues. -/
def listLoop (getPolicy : String → Except KesError Policy)
    (mtch : String → Bool) : List String → List ListItem × Bool
  | [] => ([], false)
  | n :: rest =>
    if mtch n then
      match getPolicy n with
      | Except.error e => ([ListItem.errLine e.message], true)
      | Except.ok p =>
        let next := listLoop getPolicy mtch rest
        (ListItem.entry n p.CreatedAt p.CreatedBy :: next.1, next.2)
    else listLoop getPolicy mtch rest

/-- listPolicyHandler embeds the handler of `listPolicy` (policy-api.go
lines 345 to 410). An error before streaming starts is the `Error`
response (left); once streaming starts the outcome is the emitted
ND-JSON sequence (right). `pm` is Go's `path.Match` with a bad-pattern
error collapsed to a non-match, exactly as the source discards it; it is
a parameter because `path.Match` is Go standard-library code. After the
loop, a failing iterator Close appends one final error object (only if
the loop did not already abort). -/
def listPolicyHandler (pm : String → String → Bool)
    (enclave : Except KesError Enclave) (r : Request) :
    Except KesError (List ListItem) :=
  if r.method ≠ listPolicyAPI.Method then Except.error errMethodNotAllowed
  else match normalizeURL r.path listPolicyAPI.Path with
  | some e => Except.error e
  | none =>
    match enclave with
    | Except.error e => Except.error e
    | Except.ok enc =>
      match enc.VerifyRequest r with
      | some e => Except.error e
      | none =>
        match validatePattern (requestPattern r listPolicyAPI) with
        | some e => Except.error e
        | none =>
          match enc.ListPolicies with
          | Except.error e => Except.error e
          | Except.ok names =>
            let res := listLoop enc.GetPolicy
              (pm (requestPattern r listPolicyAPI)) names
            if res.2 then Except.ok res.1
            else match enc.CloseErr with
            | some e => Except.ok (res.1 ++ [ListItem.errLine e.message])
            | none => Except.ok res.1

/-- okPolicy is a concrete policy record used in concrete evaluations of
the handlers. -/
def okPolicy : Policy := ⟨[], [], 7, "admin"⟩

/-- encAll is a concrete enclave whose authorization denies exactly the
unknown identity and whose operations all succeed. -/
def encAll : Enclave :=
  ⟨fun r => if r.identity.IsUnknown then some ⟨403, "not authorized"⟩ else none,
   fun _ _ => none,
   fun _ => Except.ok okPolicy,
   Except.ok ["alpha", "beta"],
   none⟩

/-- encFail is a concrete enclave whose policy fetch fails for exactly
one name. -/
def encFail : Enclave :=
  ⟨fun _ => none,
   fun _ _ => none,
   fun n => if n == "beta" then Except.error ⟨500, "backend failure"⟩
     else Except.ok okPolicy,
   Except.ok ["alpha", "beta", "gamma"],
   none⟩

/-- assignReq is a concrete assign-policy request whose body names the
caller itself. -/
def assignReq : Request :=
  ⟨"POST", "/v1/policy/assign/mypolicy", "abcd", Except.ok ⟨"abcd"⟩⟩

/-- assignReqUnknown is a concrete assign-policy request whose body
names the unknown identity. -/
def assignReqUnknown : Request :=
  ⟨"POST", "/v1/policy/assign/mypolicy", "abcd", Except.ok ⟨""⟩⟩

/-- listReq is a concrete list-policy request with a star pattern. -/
def listReq : Request := ⟨"GET", "/v1/policy/list/*", "abcd", Except.ok ⟨"abcd"⟩⟩

/-- matchAll matches every name; a concrete stand-in for `path.Match`. -/
def matchAll : String → String → Bool := fun _ _ => true

theorem mapLookup_mapDelete {κ : Type} (l : List (String × κ)) (name x : String) :
    mapLookup (mapDelete l name) x = if x = name then none else mapLookup l x := by
  induction l with
  | nil => simp [mapDelete, mapLookup]
  | cons p rest ih =>
    obtain ⟨n, k⟩ := p
    simp only [mapDelete]
    by_cases hn : n = name
    · subst hn
      rw [if_pos rfl, ih]
      by_cases hx : x = n
      · simp [hx]
      · rw [if_neg hx, if_neg hx, mapLookup, if_neg (fun h : n = x => hx h.symm)]
    · rw [if_neg hn]
      simp only [mapLookup]
      by_cases hx : n = x
      · subst hx
        rw [if_pos rfl, if_pos rfl, if_neg (fun h : n = name => hn h)]
      · rw [if_neg hx, if_neg hx, ih]

theorem mapDelete_mapDelete {κ : Type} (l : List (String × κ)) (name : String) :
    mapDelete (mapDelete l name) name = mapDelete l name := by
  induction l with
  | nil => rfl
  | cons p rest ih =>
    obtain ⟨n, k⟩ := p
    by_cases hn : n = name <;> simp [mapDelete, hn, ih]

theorem not_mem_keys_of_mapLookup_none {κ : Type} {l : List (String × κ)}
    {name : String} (h : mapLookup l name = none) : name ∉ l.map Prod.fst := by
  induction l with
  | nil => simp
  | cons p rest ih =>
    obtain ⟨n, k⟩ := p
    simp only [mapLookup] at h
    by_cases hn : n = name
    · rw [if_pos hn] at h
      exact absurd h (by simp)
    · rw [if_neg hn] at h
      simp only [List.map, List.mem_cons]
      exact fun hc => hc.elim (fun he => hn he.symm) (fun hm => ih h hm)

theorem mem_keys_mapDelete {κ : Type} {l : List (String × κ)} {name x : String}
    (h : x ∈ (mapDelete l name).map Prod.fst) : x ∈ l.map Prod.fst := by
  induction l with
  | nil => simp [mapDelete] at h
  | cons p rest ih =>
    obtain ⟨n, k⟩ := p
    by_cases hn : n = name
    · simp only [mapDelete, if_pos hn] at h
      exact List.mem_cons_of_mem _ (ih h)
    · simp only [mapDelete, if_neg hn, List.map, List.mem_cons] at h
      exact h.elim (fun he => List.mem_cons.mpr (Or.inl he))
        (fun hm => List.mem_cons_of_mem _ (ih hm))

theorem keysNodup_mapDelete {κ : Type} {l : List (String × κ)} {name : String}
    (h : (l.map Prod.fst).Nodup) : ((mapDelete l name).map Prod.fst).Nodup := by
  induction l with
  | nil => simp [mapDelete]
  | cons p rest ih =>
    obtain ⟨n, k⟩ := p
    simp only [List.map, List.nodup_cons] at h
    obtain ⟨hnm, hrest⟩ := h
    by_cases hn : n = name
    · simp only [mapDelete, if_pos hn]
      exact ih hrest
    · simp only [mapDelete, if_neg hn, List.map, List.nodup_cons]
      exact ⟨fun hc => hnm (mem_keys_mapDelete hc), ih hrest⟩

theorem mapLookup_applyOp {κ : Type} (s : Store κ) (op : MemOp κ) (name : String) :
    mapLookup ((applyOp s op).store) name =
      match op with
      | MemOp.create n k =>
          if n = name then some ((mapLookup s.store name).getD k)
          else mapLookup s.store name
      | MemOp.delete n => if n = name then none else mapLookup s.store name := by
  cases op with
  | create n k =>
    simp only [applyOp, Store.Create]
    cases hl : mapLookup s.store n with
    | some v =>
      by_cases hn : n = name
      · subst hn
        simp [hl]
      · simp [hn]
    | none =>
      by_cases hn : n = name
      · subst hn
        simp [mapLookup, hl]
      · simp [mapLookup, hn]
  | delete n =>
    simp only [applyOp, Store.Delete, mapLookup_mapDelete]
    by_cases hn : n = name
    · simp [hn]
    · rw [if_neg (fun h : name = n => hn h.symm), if_neg hn]

theorem runOps_eq_foldr {κ : Type} (ops : List (MemOp κ)) (s : Store κ) :
    runOps s ops = ops.reverse.foldr (fun op t => applyOp t op) s := by
  induction ops generalizing s with
  | nil => rfl
  | cons op rest ih =>
    show runOps (applyOp s op) rest = _
    rw [ih, List.reverse_cons, List.foldr_append]
    rfl

theorem mapLookup_foldr_ops {κ : Type} (rops : List (MemOp κ)) (name : String) :
    mapLookup
      ((rops.foldr (fun op t => applyOp t op) (Store.zero : Store κ)).store) name
      = lastStored rops name := by
  induction rops generalizing name with
  | nil => rfl
  | cons op rest ih =>
    rw [List.foldr_cons, mapLookup_applyOp]
    cases op with
    | create n k =>
      simp only [lastStored]
      by_cases hn : n = name
      · subst hn
        rw [if_pos rfl, if_pos rfl, ih]
      · rw [if_neg hn, if_neg hn, ih]
    | delete n =>
      simp only [lastStored]
      by_cases hn : n = name
      · rw [if_pos hn, if_pos hn]
      · rw [if_neg hn, if_neg hn, ih]

theorem iterator.drain_eq_values (vs : List String) (l : String) :
    iterator.drain ⟨vs, l⟩ = vs := by
  induction vs generalizing l with
  | nil => simp [iterator.drain]
  | cons v rest ih => simp [iterator.drain, ih]

theorem keysNodup_applyOp {κ : Type} {s : Store κ} (op : MemOp κ)
    (h : (s.store.map Prod.fst).Nodup) :
    ((applyOp s op).store.map Prod.fst).Nodup := by
  cases op with
  | create n k =>
    cases hl : mapLookup s.store n with
    | some v => simpa [applyOp, Store.Create, hl] using h
    | none =>
      simp only [applyOp, Store.Create, hl, List.map, List.nodup_cons]
      exact ⟨not_mem_keys_of_mapLookup_none hl, h⟩
  | delete n => exact keysNodup_mapDelete h

theorem keysNodup_runOps {κ : Type} (ops : List (MemOp κ)) (s : Store κ)
    (h : (s.store.map Prod.fst).Nodup) :
    ((runOps s ops).store.map Prod.fst).Nodup := by
  induction ops generalizing s with
  | nil => exact h
  | cons op rest ih => exact ih (applyOp s op) (keysNodup_applyOp op h)

/-- C4: for every store state, name and key, the in-memory backend's
`Create(name, k)` succeeds (nil error) iff no entry for the name exists,
in which case the updated store binds the name to `k`; if an entry
already exists it fails with `KeyExists` and leaves the whole store
unchanged. -/
theorem mem_Create_ifAbsent_c4 {κ : Type} (s : Store κ) (name : String) (k : κ) :
    ((s.Create name k).2 = none ↔ mapLookup s.store name = none)
  ∧ (mapLookup s.store name = none →
      (s.Create name k).1 = ⟨(name, k) :: s.store⟩
        ∧ mapLookup ((s.Create name k).1).store name = some k)
  ∧ (∀ v, mapLookup s.store name = some v →
      s.Create name k = (s, some MemError.keyExists)) := by
  cases hl : mapLookup s.store name with
  | some v =>
    refine ⟨by simp [Store.Create, hl], fun hc => Option.noConfusion hc, ?_⟩
    intro w hw
    simp [Store.Create, hl]
  | none =>
    refine ⟨by simp [Store.Create, hl], fun _ => ⟨by simp [Store.Create, hl], ?_⟩,
      fun w hw => Option.noConfusion hw⟩
    simp [Store.Create, hl, mapLookup]

theorem mem_Create_ifAbsent_c4_witness :
    ((Store.mk [("a", 1)] : Store Nat).Create "a" 2
      = (⟨[("a", 1)]⟩, some MemError.keyExists))
  ∧ ((Store.mk [("a", 1)] : Store Nat).Create "b" 2).1 = ⟨[("b", 2), ("a", 1)]⟩ :=
  ⟨(mem_Create_ifAbsent_c4 (⟨[("a", 1)]⟩ : Store Nat) "a" 2).2.2 1 (by decide),
   ((mem_Create_ifAbsent_c4 (⟨[("a", 1)]⟩ : Store Nat) "b" 2).2.1 (by decide)).1⟩

/-- C5: starting from the zero-value store, `Get(name)` after a sequence
of operations returns exactly the key of the most recent successful
`Create(name, k)` that is not followed by a `Delete(name)` (the
`lastStored` reading of the reversed trace), and fails with
`KeyNotFound` when no such create exists. -/
theorem mem_Get_lastCreate_c5 {κ : Type} (ops : List (MemOp κ)) (name : String) :
    (runOps (Store.zero : Store κ) ops).Get name =
      match lastStored ops.reverse name with
      | some k => Except.ok k
      | none => Except.error MemError.keyNotFound := by
  simp only [Store.Get, runOps_eq_foldr, mapLookup_foldr_ops]

/-- C6: `Delete(name)` always returns a nil error, afterwards `Get(name)`
fails with `KeyNotFound`, and a second `Delete(name)` also succeeds and
leaves the store state identical. -/
theorem mem_Delete_idem_c6 {κ : Type} (s : Store κ) (name : String) :
    (s.Delete name).2 = none
  ∧ (s.Delete name).1.Get name = Except.error MemError.keyNotFound
  ∧ (s.Delete name).1.Delete name = ((s.Delete name).1, none) := by
  refine ⟨rfl, ?_, ?_⟩
  · simp [Store.Delete, Store.Get, mapLookup_mapDelete]
  · simp [Store.Delete, mapDelete_mapDelete]

/-- C9: every operation is total on the zero-value store: `Status`
reports available with zero latency, `Get` fails with `KeyNotFound`,
`Delete` succeeds and keeps the zero store, `List` succeeds with an
empty iterator, and `Create` initializes the map and succeeds. -/
theorem mem_zero_total_c9 {κ : Type} :
    (Store.zero : Store κ).Status = (⟨StoreStateKind.available, 0⟩, none)
  ∧ (∀ name, (Store.zero : Store κ).Get name = Except.error MemError.keyNotFound)
  ∧ (∀ name, (Store.zero : Store κ).Delete name = (Store.zero, none))
  ∧ (Store.zero : Store κ).List = (⟨[], ""⟩, none)
  ∧ (∀ (name : String) (k : κ),
      (Store.zero : Store κ).Create name k = (⟨[(name, k)]⟩, none)) :=
  ⟨rfl, fun _ => rfl, fun _ => rfl, rfl, fun _ _ => rfl⟩

/-- C10: the iterator returned by `List` is a snapshot: draining it via
the `Next`/`Name` protocol yields exactly the names present in the store
when `List` was called (in particular the yield list is a value fixed at
that moment, so `Create` and `Delete` on the store afterwards cannot
change it); on a store built by operations from the zero value each name
appears exactly once; `Next` on an exhausted iterator returns false and
leaves it exhausted, forever; and `Err` always returns nil. -/
theorem mem_List_snapshot_c10 {κ : Type} :
    (∀ s : Store κ, ((s.List).1).drain = s.store.map Prod.fst)
  ∧ (∀ ops : List (MemOp κ),
      (((runOps (Store.zero : Store κ) ops).List).1).drain.Nodup)
  ∧ (∀ l : String, iterator.Next ⟨[], l⟩ = (false, ⟨[], l⟩))
  ∧ (∀ it : iterator, it.Err = none) := by
  refine ⟨fun s => iterator.drain_eq_values _ _, fun ops => ?_,
    fun l => rfl, fun it => rfl⟩
  have h : (((runOps (Store.zero : Store κ) ops).List).1).drain
      = (runOps (Store.zero : Store κ) ops).store.map Prod.fst :=
    iterator.drain_eq_values _ _
  rw [h]
  exact keysNodup_runOps ops Store.zero List.nodup_nil

/-- C1: for a request that reaches the assign-policy handler's inner
guards (matching method, normalized URL, enclave found, successful
`VerifyRequest`, valid policy name, well-formed body), if the caller's
identity after proxy unwrap equals the identity named in the request
body, the handler responds 403 with message "identity cannot assign
policy to itself" and issues no `AssignPolicy` call. The enclave's
authorization is assumed to deny the unknown identity, as the spec fixes
for `VerifyRequest`. -/
theorem assign_self_forbidden_c1 (enc : Enclave) (r : Request) (b : AssignBody)
    (hdeny : enc.DeniesUnknown)
    (hm : r.method = assignPolicyAPI.Method)
    (hn : normalizeURL r.path assignPolicyAPI.Path = none)
    (hv : enc.VerifyRequest r = none)
    (hname : validateName (requestPattern r assignPolicyAPI) = none)
    (hb : r.body = Except.ok b)
    (hself : r.identity = b.identity) :
    assignPolicyHandler (Except.ok enc) r =
      ⟨403, "identity cannot assign policy to itself", []⟩ := by
  have hunk : b.identity.IsUnknown = false := by
    cases hu : b.identity.IsUnknown with
    | false => rfl
    | true =>
      have hr : r.identity.IsUnknown = true := by rw [hself]; exact hu
      exact absurd hv (hdeny r hr)
  simp only [assignPolicyHandler, hm, hn, hv, hname, hb, hunk, hself]
  simp

/-- C8: for a request that reaches the assign-policy handler's inner
guards and whose body decodes to the unknown identity, the handler
responds 400 with message "identity is unknown" and issues no
`AssignPolicy` call. -/
theorem assign_unknown_rejected_c8 (enc : Enclave) (r : Request) (b : AssignBody)
    (hm : r.method = assignPolicyAPI.Method)
    (hn : normalizeURL r.path assignPolicyAPI.Path = none)
    (hv : enc.VerifyRequest r = none)
    (hname : validateName (requestPattern r assignPolicyAPI) = none)
    (hb : r.body = Except.ok b)
    (hu : b.identity.IsUnknown = true) :
    assignPolicyHandler (Except.ok enc) r = ⟨400, "identity is unknown", []⟩ := by
  simp only [assignPolicyHandler, hm, hn, hv, hname, hb, hu]
  simp

/-- C2 counterexample: it is not the case that every policy API route's
chain includes the proxy-unwrap middleware; the describe route's chain
(policy-api.go line 70) is timeout, metrics count, metrics latency, with
no proxy wrapper. -/
theorem policy_proxy_counter_c2 :
    ¬ (∀ p ∈ policyAPIChains, Middleware.proxy ∈ p.2) := by
  decide

/-- C2 amended: every policy API route's handler chain except that of
/v1/policy/describe/ includes the proxy-unwrap middleware. -/
theorem policy_proxy_except_describe_c2 :
    ∀ p ∈ policyAPIChains, p.1 ≠ "/v1/policy/describe/" →
      Middleware.proxy ∈ p.2 := by
  decide

theorem policy_proxy_except_describe_c2_witness :
    Middleware.proxy ∈ ("/v1/policy/assign/", assignPolicyChain).2 :=
  policy_proxy_except_describe_c2 ("/v1/policy/assign/", assignPolicyChain)
    (by decide) (by decide)

/-- C3 counterexample: the bind-identity-to-policy route of
policy-api.go is not served at /v1/identity/assign/. -/
theorem assign_route_counter_c3 :
    ¬ (assignPolicyAPI.Method = "POST"
        ∧ assignPolicyAPI.Path = "/v1/identity/assign/"
        ∧ assignPolicyAPI.MaxBody = 1024) := by
  decide

/-- C3 amended: the bind-identity-to-policy operation is served at POST
/v1/policy/assign/<policy>/ with a maximum request body of 1 KiB
(1024 bytes); a request with any other method is rejected with 405. -/
theorem assign_route_c3 :
    assignPolicyAPI.Method = "POST"
  ∧ assignPolicyAPI.Path = "/v1/policy/assign/"
  ∧ assignPolicyAPI.MaxBody = 1024
  ∧ (∀ (e : Except KesError Enclave) (r : Request), r.method ≠ "POST" →
      assignPolicyHandler e r =
        ⟨errMethodNotAllowed.status, errMethodNotAllowed.message, []⟩) := by
  refine ⟨rfl, rfl, rfl, fun e r hr => ?_⟩
  simp [assignPolicyHandler, assignPolicyAPI, hr]

theorem assign_route_c3_witness :
    assignPolicyHandler (Except.ok encAll)
        ⟨"GET", "/v1/policy/assign/mypolicy", "abcd", Except.ok ⟨"abcd"⟩⟩ =
      ⟨errMethodNotAllowed.status, errMethodNotAllowed.message, []⟩ :=
  assign_route_c3.2.2.2 (Except.ok encAll)
    ⟨"GET", "/v1/policy/assign/mypolicy", "abcd", Except.ok ⟨"abcd"⟩⟩
    (by decide)

theorem assign_self_forbidden_c1_witness :
    assignPolicyHandler (Except.ok encAll) assignReq =
      ⟨403, "identity cannot assign policy to itself", []⟩ :=
  assign_self_forbidden_c1 encAll assignReq ⟨"abcd"⟩
    (fun r h => by simp [encAll, Enclave.VerifyRequest, h])
    rfl (by decide) (by decide) (by decide) rfl rfl

theorem assign_unknown_rejected_c8_witness :
    assignPolicyHandler (Except.ok encAll) assignReqUnknown =
      ⟨400, "identity is unknown", []⟩ :=
  assign_unknown_rejected_c8 encAll assignReqUnknown ⟨""⟩
    rfl (by decide) (by decide) (by decide) rfl (by decide)

theorem listLoop_all_ok (getPolicy : String → Except KesError Policy)
    (mtch : String → Bool) (names : List String)
    (h : ∀ n ∈ names, mtch n = true → ∃ p, getPolicy n = Except.ok p) :
    listLoop getPolicy mtch names
      = ((names.filter mtch).map (entryOf getPolicy), false) := by
  induction names with
  | nil => rfl
  | cons n rest ih =>
    have hrest := ih (fun m hm' hmm => h m (List.mem_cons_of_mem _ hm') hmm)
    by_cases hm : mtch n = true
    · obtain ⟨p, hp⟩ := h n (List.mem_cons_self n rest) hm
      simp [listLoop, hm, hp, hrest, List.filter_cons, entryOf]
    · simp [listLoop, hm, hrest, List.filter_cons]

theorem listLoop_fails (getPolicy : String → Except KesError Policy)
    (mtch : String → Bool) (l₁ : List String) (n₀ : String) (l₂ : List String)
    (e : KesError)
    (h1 : ∀ n ∈ l₁, mtch n = true → ∃ p, getPolicy n = Except.ok p)
    (hm : mtch n₀ = true) (he : getPolicy n₀ = Except.error e) :
    listLoop getPolicy mtch (l₁ ++ n₀ :: l₂) =
      ((l₁.filter mtch).map (entryOf getPolicy)
        ++ [ListItem.errLine e.message], true) := by
  induction l₁ with
  | nil => simp [listLoop, hm, he]
  | cons n rest ih =>
    have hrest := ih (fun m hm' hmm => h1 m (List.mem_cons_of_mem _ hm') hmm)
    by_cases hmn : mtch n = true
    · obtain ⟨p, hp⟩ := h1 n (List.mem_cons_self n rest) hmn
      simp [listLoop, hmn, hp, hrest, List.filter_cons, List.cons_append, entryOf]
    · simp [listLoop, hmn, hrest, List.filter_cons, List.cons_append]

/-- C7: for a request that reaches the list-policy handler's streaming
loop (matching method, normalized URL, successful `VerifyRequest`, valid
pattern, iterator obtained), the handler emits one ND-JSON entry
carrying name, created_at and created_by per listed policy whose name
matches the pattern (when every such fetch and the iterator close
succeed), and if fetching one policy's metadata fails mid-stream it
emits the entries for the matching names before it followed by a single
final error object and terminates the stream there. -/
theorem list_policy_stream_c7 (pm : String → String → Bool) (enc : Enclave)
    (r : Request) (names : List String)
    (hm : r.method = listPolicyAPI.Method)
    (hn : normalizeURL r.path listPolicyAPI.Path = none)
    (hv : enc.VerifyRequest r = none)
    (hp : validatePattern (requestPattern r listPolicyAPI) = none)
    (hl : enc.ListPolicies = Except.ok names) :
    ((∀ n ∈ names, pm (requestPattern r listPolicyAPI) n = true →
        ∃ p, enc.GetPolicy n = Except.ok p) → enc.CloseErr = none →
      listPolicyHandler pm (Except.ok enc) r =
        Except.ok ((names.filter (pm (requestPattern r listPolicyAPI))).map
          (entryOf enc.GetPolicy)))
  ∧ (∀ (l₁ : List String) (n₀ : String) (l₂ : List String) (e : KesError),
      names = l₁ ++ n₀ :: l₂ →
      (∀ n ∈ l₁, pm (requestPattern r listPolicyAPI) n = true →
        ∃ p, enc.GetPolicy n = Except.ok p) →
      pm (requestPattern r listPolicyAPI) n₀ = true →
      enc.GetPolicy n₀ = Except.error e →
      listPolicyHandler pm (Except.ok enc) r =
        Except.ok ((l₁.filter (pm (requestPattern r listPolicyAPI))).map
          (entryOf enc.GetPolicy) ++ [ListItem.errLine e.message])) := by
  constructor
  · intro hok hclose
    have hloop := listLoop_all_ok enc.GetPolicy
      (pm (requestPattern r listPolicyAPI)) names hok
    simp [listPolicyHandler, hm, hn, hv, hp, hl, hloop, hclose]
  · intro l₁ n₀ l₂ e hsplit h1 hm0 he
    subst hsplit
    have hloop := listLoop_fails enc.GetPolicy
      (pm (requestPattern r listPolicyAPI)) l₁ n₀ l₂ e h1 hm0 he
    simp [listPolicyHandler, hm, hn, hv, hp, hl, hloop]

theorem list_policy_stream_c7_witness :
    (listPolicyHandler matchAll (Except.ok encAll) listReq =
      Except.ok ((["alpha", "beta"].filter
          (matchAll (requestPattern listReq listPolicyAPI))).map
        (entryOf encAll.GetPolicy)))
  ∧ (listPolicyHandler matchAll (Except.ok encFail) listReq =
      Except.ok ((["alpha"].filter
          (matchAll (requestPattern listReq listPolicyAPI))).map
        (entryOf encFail.GetPolicy) ++ [ListItem.errLine "backend failure"])) :=
  ⟨(list_policy_stream_c7 matchAll encAll listReq ["alpha", "beta"]
      rfl (by decide) rfl (by decide) rfl).1
      (fun n hn hm => ⟨okPolicy, rfl⟩) rfl,
   (list_policy_stream_c7 matchAll encFail listReq ["alpha", "beta", "gamma"]
      rfl (by decide) rfl (by decide) rfl).2
      ["alpha"] "beta" ["gamma"] ⟨500, "backend failure"⟩ rfl
      (fun n hn hm => ⟨okPolicy, by
        rcases List.mem_singleton.mp hn with rfl
        rfl⟩)
      rfl rfl⟩

end Kes
